import Mathlib

/-!
Verification of the OpenWebUI → OpenRouter middleware (Elysia/Bun) against its
natural-language specification.  The definitions below are a shallow embedding
of `src/middleware/src/index.ts` (current revision: the second document in the
file): JavaScript strings are Lean `String`s, JSON objects are Lean structures
with `Option` fields for possibly-absent members, Redis state is an explicit
record, and platform primitives (`JSON.parse`, `atob`, the string methods)
are modelled by executable Lean functions over `List Char`.
-/

/-! ### JavaScript string primitives, modelled over `List Char` -/

/-- ASCII lowercasing of one character (model of JS `toLowerCase` per char). -/
def lowerChar (c : Char) : Char :=
  if 'A' ≤ c ∧ c ≤ 'Z' then Char.ofNat (c.toNat + 32) else c

/-- Model of JS `String.prototype.toLowerCase` (ASCII range). -/
def jsToLower (s : String) : String := ⟨s.data.map lowerChar⟩

/-- Whitespace characters removed by JS `String.prototype.trim`. -/
def isWsChar (c : Char) : Bool :=
  c = ' ' || c = '\t' || c = '\n' || c = '\r' || c = '\x0b' || c = '\x0c'

/-- `trim` on character lists: drop whitespace from both ends. -/
def trimL (l : List Char) : List Char :=
  ((l.dropWhile isWsChar).reverse.dropWhile isWsChar).reverse

/-- Model of JS `String.prototype.trim`. -/
def jsTrim (s : String) : String := ⟨trimL s.data⟩

/-- Substring occurrence on character lists. -/
def containsSub : List Char → List Char → Bool
  | [], pat => pat.isEmpty
  | l@(_ :: rest), pat => pat.isPrefixOf l || containsSub rest pat

/-- Model of JS `String.prototype.includes`. -/
def jsIncludes (s pat : String) : Bool := containsSub s.data pat.data

/-- Model of JS `String.prototype.startsWith`. -/
def jsStartsWith (s pat : String) : Bool := pat.data.isPrefixOf s.data

/-- Model of JS `String.prototype.slice(0, n)`. -/
def jsTake (s : String) (n : Nat) : String := ⟨s.data.take n⟩

/-- Model of JS `String.prototype.slice(-n)` for `n` at most the length. -/
def jsTakeRight (s : String) (n : Nat) : String := ⟨s.data.drop (s.data.length - n)⟩

/-- Model of JS `String.prototype.length` (code points; identical to UTF-16
units for the basic plane). -/
def jsLength (s : String) : Nat := s.data.length

/-- Split a character list on a single-character separator (model of JS
`String.prototype.split` with a one-character pattern).  Never returns `[]`. -/
def splitOnChar (c : Char) : List Char → List (List Char)
  | [] => [[]]
  | x :: rest =>
    if x = c then [] :: splitOnChar c rest
    else
      match splitOnChar c rest with
      | [] => [[x]]
      | p :: ps => (x :: p) :: ps

/-- Model of JS `String.prototype.split` with a one-character separator. -/
def jsSplitChar (s : String) (c : Char) : List String :=
  (splitOnChar c s.data).map (fun l => ⟨l⟩)

/-! ### JavaScript truthiness helpers -/

/-- JS `a || b` on nullable strings: the empty string is falsy. -/
def jsOrStr (a b : Option String) : Option String :=
  match a with
  | some s => if s = "" then b else some s
  | none => b

/-- JS `a || d` where `a` is a possibly-absent number: `0` and absent are falsy. -/
def jsOrInt (a : Option Int) (d : Int) : Int :=
  match a with
  | some v => if v = 0 then d else v
  | none => d

/-- JS `a || d` for possibly-absent decimal numbers (`0` and absent are falsy). -/
def jsOrRat (a : Option ℚ) (d : ℚ) : ℚ :=
  match a with
  | some v => if v = 0 then d else v
  | none => d

/-! ### Header hygiene (`cleanHeaders`, index.ts lines 407-426) -/

/-- `HOP_BY_HOP_HEADERS` from index.ts. -/
def HOP_BY_HOP_HEADERS : List String :=
  ["connection", "keep-alive", "proxy-authenticate", "proxy-authorization",
   "te", "trailer", "transfer-encoding", "upgrade"]

/-- `STRIP_HEADERS` from index.ts. -/
def STRIP_HEADERS : List String :=
  ["cookie", "authorization", "x-forwarded-for", "x-real-ip",
   "x-forwarded-proto", "x-forwarded-host", "accept-encoding", "host", "content-length"]

/-- `cleanHeaders` from index.ts: keep a header unless its lowercased name is in
`STRIP_HEADERS` or `HOP_BY_HOP_HEADERS`.  A `Headers` object is modelled as an
association list of (name, value) pairs. -/
def cleanHeaders (headers : List (String × String)) : List (String × String) :=
  headers.filter (fun kv =>
    !(STRIP_HEADERS.contains (jsToLower kv.1)) && !(HOP_BY_HOP_HEADERS.contains (jsToLower kv.1)))

/-! ### Config masking (`maskConfigValue`, index.ts lines 343-350) -/

/-- `maskConfigValue` from index.ts.  `!value` is modelled as `value = ""`
(the `system_config.value` column is `TEXT NOT NULL`). -/
def maskConfigValue (key : String) (value : String) : String :=
  if value = "" then ""
  else if jsIncludes key "KEY" || jsIncludes key "PASSWORD" || jsIncludes key "SECRET" then
    if jsLength value ≤ 8 then "********"
    else jsTake value 4 ++ "********" ++ jsTakeRight value 4
  else value

/-- Spec §4.7 masking rule, amended with the empty-value case the code
actually implements: an empty stored value is rendered as the empty string,
not as `"********"`. -/
def maskConfigValueSpecAmended (key : String) (value : String) : String :=
  if jsIncludes key "KEY" || jsIncludes key "PASSWORD" || jsIncludes key "SECRET" then
    if value = "" then ""
    else if jsLength value ≤ 8 then "********"
    else jsTake value 4 ++ "********" ++ jsTakeRight value 4
  else value

/-! ### Data model (db.ts `initDb` schema) -/

/-- A row of the `policies` table.  `bigint` limits are modelled as `Int`
(`-1` is the unlimited convention). -/
structure Policy where
  name : String
  daily_token_limit : Int
  monthly_token_limit : Int
  allowed_models : String
deriving DecidableEq

/-- A row of the `users` table (`is_active` is a boolean-valued integer). -/
structure User where
  is_active : Bool
  policy_id : String
deriving DecidableEq

/-- A row of the `group_policies` table. -/
structure GroupPolicy where
  group_name : String
  policy_id : String
  priority : Int
deriving DecidableEq

/-! ### Policy resolution (`resolveEffectivePolicy`, index.ts lines 506-524)

The SQL `SELECT gp.policy_id FROM group_policies gp JOIN policies p ON
gp.policy_id = p.id WHERE gp.group_name = ANY($1) ORDER BY gp.priority DESC
LIMIT 1` filters the matching rows and returns one row of maximal priority.
Ties on `priority` carry no secondary sort key, so which maximal row Postgres
returns is unspecified; the embedding makes that explicit by parametrising
over a row-selection function constrained only by `ValidPick`. -/

/-- The rows the SQL query ranges over: group name in the request's groups, and
the joined policy row exists. -/
def matchingRows (policies : String → Option Policy) (gps : List GroupPolicy)
    (groups : List String) : List GroupPolicy :=
  gps.filter (fun g => groups.contains g.group_name && (policies g.policy_id).isSome)

/-- What `ORDER BY gp.priority DESC LIMIT 1` guarantees — and all it
guarantees: on a non-empty row set, some row of maximal priority is returned. -/
def ValidPick (pick : List GroupPolicy → Option GroupPolicy) : Prop :=
  ∀ rows : List GroupPolicy,
    (rows = [] → pick rows = none) ∧
    (rows ≠ [] → ∃ r, pick rows = some r ∧ r ∈ rows ∧
      ∀ r' ∈ rows, r'.priority ≤ r.priority)

/-- A valid pick: the first row of maximal priority, in list order. -/
def pickFirst : List GroupPolicy → Option GroupPolicy
  | [] => none
  | r :: rest =>
    match pickFirst rest with
    | none => some r
    | some b => if b.priority > r.priority then some b else some r

/-- A valid pick: the last row of maximal priority, in list order. -/
def pickLast : List GroupPolicy → Option GroupPolicy
  | [] => none
  | r :: rest =>
    match pickLast rest with
    | none => some r
    | some b => if b.priority ≥ r.priority then some b else some r

/-- `resolveEffectivePolicy` from index.ts: keep the user's own policy unless
it is `default` and the group list is non-empty, in which case the group-policy
query result (if any) overrides it. -/
def resolveEffectivePolicy (policies : String → Option Policy)
    (gps : List GroupPolicy) (pick : List GroupPolicy → Option GroupPolicy)
    (user : User) (groups : List String) : String :=
  if user.policy_id = "default" ∧ groups ≠ [] then
    match pick (matchingRows policies gps groups) with
    | some r => r.policy_id
    | none => user.policy_id
  else user.policy_id

/-- Strict lexicographic order on character lists. -/
def ltCharList : List Char → List Char → Bool
  | [], [] => false
  | [], _ :: _ => true
  | _ :: _, [] => false
  | a :: as, b :: bs => if a < b then true else if b < a then false else ltCharList as bs

/-- Modelled from the spec's words (§4.2), for comparison with the code:
`b` beats `a` when it has higher priority, or equal priority and
lexicographically smaller `group_name`. -/
def specBeats (b a : GroupPolicy) : Bool :=
  b.priority > a.priority ||
    (b.priority = a.priority && ltCharList b.group_name.data a.group_name.data)

/-- Modelled from the spec's words (§4.2): the unique best row under
priority-then-lexicographic-group-name order. -/
def specBest : List GroupPolicy → Option GroupPolicy
  | [] => none
  | r :: rest =>
    match specBest rest with
    | none => some r
    | some b => if specBeats b r then some b else some r

/-- Modelled from the spec's words (§4.2): `ResolveEffectivePolicy` with the
deterministic lexicographic tie-break the spec describes. -/
def resolveEffectivePolicySpec (policies : String → Option Policy)
    (gps : List GroupPolicy) (user : User) (groups : List String) : String :=
  if user.policy_id ≠ "default" then user.policy_id
  else
    match specBest (matchingRows policies gps groups) with
    | some r => r.policy_id
    | none => "default"

/-! ### Access control (`checkAccess`, index.ts lines 526-553) -/

/-- The `{allowed, reason}` part of the object `checkAccess` returns (the
`groups` member is only echoed back to the caller). -/
structure CheckResult where
  allowed : Bool
  reason : Option String
deriving DecidableEq

/-- `checkAccess` from index.ts.  The database tables are modelled as lookup
functions, the externally-fetched group list and the two parsed Redis counters
as parameters.  Quota limits arrive as `bigint` rows; both the JS `>`
coercion and `parseInt` read them as the same integer. -/
def checkAccess (users : String → Option User) (policies : String → Option Policy)
    (gps : List GroupPolicy) (pick : List GroupPolicy → Option GroupPolicy)
    (groups : List String) (dailyUsage monthlyUsage : Int) (userId : String) :
    CheckResult :=
  match users userId with
  | none => ⟨false, some "User inactive or not found"⟩
  | some user =>
    if !user.is_active then ⟨false, some "User inactive or not found"⟩
    else
      let activePolicyId := resolveEffectivePolicy policies gps pick user groups
      match policies activePolicyId with
      | none => ⟨false, some ("Policy " ++ activePolicyId ++ " not found")⟩
      | some policy =>
        if policy.daily_token_limit > 0 ∧ dailyUsage ≥ policy.daily_token_limit then
          ⟨false, some "Daily token limit exceeded"⟩
        else if policy.monthly_token_limit > 0 ∧ monthlyUsage ≥ policy.monthly_token_limit then
          ⟨false, some "Monthly token limit exceeded"⟩
        else ⟨true, none⟩

/-! ### Usage accounting (`processUsage`, index.ts lines 555-573) -/

/-- The Redis key `usage:user:{id}:daily:{YYYY-MM-DD}`. -/
def dailyKeyOf (uid date : String) : String :=
  "usage:user:" ++ uid ++ ":daily:" ++ date

/-- The Redis key `usage:user:{id}:monthly:{YYYY-MM}`. -/
def monthlyKeyOf (uid month : String) : String :=
  "usage:user:" ++ uid ++ ":monthly:" ++ month

/-- A parsed upstream `usage` object; every member may be absent.  Token
counts are integers, costs are decimal numbers modelled as rationals. -/
structure UsageObj where
  prompt_tokens : Option Int
  completion_tokens : Option Int
  total_tokens : Option Int
  cost : Option ℚ
  total_cost : Option ℚ
deriving DecidableEq

/-- JS `usage.prompt_tokens + usage.completion_tokens`: `none` models the NaN
produced when either member is absent. -/
def usageSum (u : UsageObj) : Option Int :=
  match u.prompt_tokens, u.completion_tokens with
  | some p, some c => some (p + c)
  | _, _ => none

/-- JS `usage.total_tokens || (usage.prompt_tokens + usage.completion_tokens)`:
an absent or zero `total_tokens` falls back to the sum. -/
def usageTotal (u : UsageObj) : Option Int :=
  match u.total_tokens with
  | some t => if t = 0 then usageSum u else some t
  | none => usageSum u

/-- JS `usage.cost || usage.total_cost || 0`. -/
def usageCost (u : UsageObj) : ℚ :=
  jsOrRat u.cost (jsOrRat u.total_cost 0)

/-- The JSON payload `lpush`ed onto `usage_queue` (index.ts lines 567-571);
absent members are omitted by `JSON.stringify`, hence the `Option` fields. -/
structure UsageEventRec where
  user_id : String
  model : String
  prompt_tokens : Option Int
  completion_tokens : Option Int
  total_tokens : Int
  total_cost : ℚ
  ts : String
deriving DecidableEq

/-- The Redis state `processUsage` touches: integer counters, per-key TTLs,
and the `usage_queue` list (leftmost element = most recently pushed). -/
structure RedisState where
  counters : List (String × Int)
  ttls : List (String × Int)
  usageQueue : List UsageEventRec
deriving DecidableEq

/-- Redis `INCRBY`: add to an existing key or create it from 0. -/
def assocIncr : List (String × Int) → String → Int → List (String × Int)
  | [], k, n => [(k, n)]
  | (k', v) :: rest, k, n =>
    if k' = k then (k', v + n) :: rest else (k', v) :: assocIncr rest k n

/-- Redis `EXPIRE`: set the TTL of a key. -/
def assocSet : List (String × Int) → String → Int → List (String × Int)
  | [], k, n => [(k, n)]
  | (k', v) :: rest, k, n =>
    if k' = k then (k', n) :: rest else (k', v) :: assocSet rest k n

/-- `processUsage` from index.ts: for an identified user, increment the daily
and monthly counters by the computed total, set a 3,456,000-second TTL on both
keys, and push one usage event.  `none` models the rejected `Promise.all` when
the computed total is NaN (a missing token count with no usable
`total_tokens`). -/
def processUsage (userId : Option String) (model : String) (u : UsageObj)
    (date month ts : String) (st : RedisState) : Option RedisState :=
  match userId with
  | none => some st
  | some uid =>
    match usageTotal u with
    | none => none
    | some total =>
      some { counters := assocIncr (assocIncr st.counters (dailyKeyOf uid date) total)
               (monthlyKeyOf uid month) total
             ttls := assocSet (assocSet st.ttls (dailyKeyOf uid date) 3456000)
               (monthlyKeyOf uid month) 3456000
             usageQueue := ⟨uid, model, u.prompt_tokens, u.completion_tokens, total,
               usageCost u, ts⟩ :: st.usageQueue }

/-! ### Configuration plane (index.ts lines 303-331, 360-365, 978-1006) -/

/-- The `required` array from index.ts: the keys `validateConfigMap` actually
checks.  Note `REDIS_URL`, `DATABASE_URL`, `WEBUI_DATABASE_URL` are absent,
although §4.7 of the spec and `CONFIG_STRATEGY.md` list them as required. -/
def required : List String :=
  ["OPENROUTER_API_KEY", "ADMIN_API_KEY", "OPENROUTER_HTTP_REFERER",
   "OPENROUTER_X_TITLE", "LOG_MODE"]

/-- The `CONFIG_KEYS` array from index.ts: the recognized configuration keys. -/
def CONFIG_KEYS : List String :=
  ["OPENROUTER_API_KEY", "ADMIN_API_KEY", "OPENROUTER_HTTP_REFERER",
   "OPENROUTER_X_TITLE", "LOG_MODE", "REDIS_URL", "DATABASE_URL",
   "WEBUI_DATABASE_URL"]

/-- The keys `validateConfigMap` reports: members of `required` that are absent
or whitespace-blank in the map (a config map is a total function, with `""`
standing for an absent key). -/
def missingRequired (input : String → String) : List String :=
  required.filter (fun k => jsTrim (input k) = "")

/-- `validateConfigMap` from index.ts: `some message` models the thrown
`Error`, `none` a successful validation. -/
def validateConfigMap (input : String → String) : Option String :=
  if missingRequired input = [] then none
  else some ("Missing required config: " ++ String.intercalate ", " (missingRequired input))

/-- The merge loop of the `POST /config` handler: fold the posted keys over the
current rows, accepting only recognized keys and recording them in `changed`. -/
def mergeUpdates (current : String → String) (updates : List (String × String)) :
    (String → String) × List String :=
  updates.foldl
    (fun acc kv =>
      if CONFIG_KEYS.contains kv.1 then
        (fun k => if k = kv.1 then kv.2 else acc.1 k, acc.2 ++ [kv.1])
      else acc)
    (current, [])

/-- Outcome of the `POST /config` handler: HTTP status, success flag, changed
keys, the persisted map (`none` when no `system_config` row is modified), and
whether a ConfigBus message was published. -/
structure ConfigPostOutcome where
  status : Nat
  success : Bool
  changed : List String
  persisted : Option (String → String)
  published : Bool

/-- The `POST /config` handler from index.ts: merge recognized keys into the
current rows, validate, and either fail with 400 (persisting nothing) or
persist the whole merged map, reload, and publish. -/
def postConfig (current : String → String) (updates : List (String × String)) :
    ConfigPostOutcome :=
  let m := mergeUpdates current updates
  match validateConfigMap m.1 with
  | some _ => ⟨400, false, m.2, none, false⟩
  | none => ⟨200, true, m.2, some m.1, true⟩

/-- A fully-populated current configuration, every recognized key non-blank. -/
def currentConfigW : String → String :=
  fun k => if CONFIG_KEYS.contains k then "configured-value" else ""

/-! ### Identity resolution (`getUserFromJWT` lines 428-439, handler lines
761-767) -/

/-- Value of one character of the standard base64 alphabet. -/
def b64Val (c : Char) : Option Nat :=
  if 'A' ≤ c ∧ c ≤ 'Z' then some (c.toNat - 65)
  else if 'a' ≤ c ∧ c ≤ 'z' then some (c.toNat - 97 + 26)
  else if '0' ≤ c ∧ c ≤ '9' then some (c.toNat - 48 + 52)
  else if c = '+' then some 62
  else if c = '/' then some 63
  else none

/-- Base64 decoding of a padded character stream to bytes; `none` models the
exception JS `atob` throws on invalid input. -/
def b64Decode : List Char → Option (List Nat)
  | [] => some []
  | a :: b :: '=' :: '=' :: [] => do
    let va ← b64Val a
    let vb ← b64Val b
    pure [va * 4 + vb / 16]
  | a :: b :: c :: '=' :: [] => do
    let va ← b64Val a
    let vb ← b64Val b
    let vc ← b64Val c
    pure [va * 4 + vb / 16, vb % 16 * 16 + vc / 4]
  | a :: b :: c :: d :: rest => do
    let va ← b64Val a
    let vb ← b64Val b
    let vc ← b64Val c
    let vd ← b64Val d
    let bytes ← b64Decode rest
    pure ([va * 4 + vb / 16, vb % 16 * 16 + vc / 4, vc % 4 * 64 + vd] ++ bytes)
  | _ => none

/-- Model of JS `atob`: bytes are returned as a latin-1 string. -/
def jsAtob (s : String) : Option String :=
  (b64Decode s.data).map (fun bs => ⟨bs.map Char.ofNat⟩)

/-- The members `getUserFromJWT` reads off the parsed JWT payload. -/
structure JwtPayload where
  email : Option String
  id : Option String
  sub : Option String

/-- The two global `replace` calls from index.ts turning URL-safe base64
characters (dash, underscore) into the standard alphabet (plus, slash). -/
def replaceUrlChars (s : String) : String :=
  ⟨s.data.map (fun c => if c = '-' then '+' else if c = '_' then '/' else c)⟩

/-- `getUserFromJWT` from index.ts: split on `.`, take the middle segment,
restore padding modulo 4, URL-safe-to-standard substitution, `atob`, JSON
parse (abstracted as `parse`), then `email || id || sub || null`, lowercased.
Every failure path returns `none` (the surrounding try/catch). -/
def getUserFromJWT (parse : String → Option JwtPayload) (token : String) :
    Option String :=
  let parts := jsSplitChar token '.'
  if parts.length < 2 then none
  else
    let payload := (parts.get? 1).getD ""
    let padded := payload ++ ⟨List.replicate ((4 - payload.data.length % 4) % 4) '='⟩
    match jsAtob (replaceUrlChars padded) with
    | none => none
    | some decoded =>
      match parse decoded with
      | none => none
      | some data =>
        match jsOrStr data.email (jsOrStr data.id data.sub) with
        | none => none
        | some id => if id = "" then none else some (jsToLower id)

/-- The bearer-token branch of the handler: `authorization` header (or `""`),
`startsWith "Bearer "`, then `getUserFromJWT` on `split(" ")[1]`. -/
def bearerJwtId (parse : String → Option JwtPayload) (ah : Option String) :
    Option String :=
  if jsStartsWith (ah.getD "") "Bearer " then
    getUserFromJWT parse (((jsSplitChar (ah.getD "") ' ').get? 1).getD "")
  else none

/-- Identity resolution from the `/v1/*` handler (index.ts lines 761-767):
`x-openwebui-user-email || x-openwebui-user-id`, lowercased and trimmed when
truthy; when the result is null or empty and a Bearer token is present, the
JWT result (possibly null) replaces it. -/
def resolveIdentity (parse : String → Option JwtPayload)
    (eh ih ah : Option String) : Option String :=
  let rawUserId := jsOrStr eh ih
  let userId0 : Option String := rawUserId.map (fun s => jsTrim (jsToLower s))
  match userId0 with
  | some s =>
    if s = "" then
      if jsStartsWith (ah.getD "") "Bearer " then bearerJwtId parse ah else some s
    else some s
  | none => bearerJwtId parse ah

/-- A `JSON.parse` behaviour for the C7 counterexample: exactly the decoded
payload text parses, to an object with a non-trimmed email. -/
def parseJwtCx : String → Option JwtPayload := fun s =>
  if s = "\x7b\"email\":\" A@X.com \"\x7d" then some ⟨some " A@X.com ", none, none⟩
  else none

/-! ### Streaming usage extraction (`streamWithUsageTracking`, index.ts lines
699-729)

The JS loop repeatedly cuts the rolling buffer at the first `"\n\n"`.
`sseSplit` performs the same greedy leftmost split in one pass: its
`dropLast` is the list of complete events extracted, its last element the
remaining buffer. -/

/-- Greedy split of a character stream at every (non-overlapping, leftmost)
`"\n\n"`.  Never returns `[]`; the last element is the unterminated rest. -/
def sseSplit : List Char → List (List Char)
  | [] => [[]]
  | [c] => [[c]]
  | c1 :: c2 :: rest =>
    if c1 = '\n' ∧ c2 = '\n' then [] :: sseSplit rest
    else
      match sseSplit (c2 :: rest) with
      | [] => [[c1]]
      | p :: ps => (c1 :: p) :: ps

/-- A parsed SSE `data:` payload; only the members the middleware reads. -/
structure SseJson where
  model : Option String
  usage : Option UsageObj
deriving DecidableEq

/-- The per-event body of the streaming loop: events starting with `"data: "`
whose trimmed remainder is non-empty and not `"[DONE]"` are JSON-parsed;
when parsing succeeds and a `usage` member is present, `processUsage` is
invoked with `data.model || ""` — the empty string, not the request's model.
Returns the `(model, usage)` pair passed on, `none` when the event is
skipped or unparseable. -/
def handleSsePart (parse : String → Option SseJson) (part : List Char) :
    Option (String × UsageObj) :=
  if ("data: ".data).isPrefixOf part then
    let dataStr := trimL (part.drop 6)
    if dataStr ≠ [] ∧ dataStr ≠ "[DONE]".data then
      match parse ⟨dataStr⟩ with
      | some j =>
        match j.usage with
        | some u => some (j.model.getD "", u)
        | none => none
      | none => none
    else none
  else none

/-- Modelled from the spec's words (§4.4.1), for comparison with the code: the
same per-event processing, but with the UsageEvent keyed by `data.model`
falling back to the REQUEST's model. -/
def handleSsePartClaim (parse : String → Option SseJson) (requestModel : String)
    (part : List Char) : Option (String × UsageObj) :=
  if ("data: ".data).isPrefixOf part then
    let dataStr := trimL (part.drop 6)
    if dataStr ≠ [] ∧ dataStr ≠ "[DONE]".data then
      match parse ⟨dataStr⟩ with
      | some j =>
        match j.usage with
        | some u => some (j.model.getD requestModel, u)
        | none => none
      | none => none
    else none
  else none

/-- One observable step of the streaming generator: a chunk yielded downstream
or a `processUsage` call. -/
inductive StreamAction where
  | yield (chunk : String)
  | usage (model : String) (u : UsageObj)
deriving DecidableEq

/-- The generator's trace from a given rolling buffer: each chunk is yielded
first, then the buffer is extended and every complete `"\n\n"`-terminated
event is processed; the unterminated rest is carried into the next chunk.
The final buffer contents are discarded, exactly as in the code. -/
def streamTraceAux (parse : String → Option SseJson) :
    List Char → List String → List StreamAction
  | _, [] => []
  | buffer, chunk :: rest =>
    let parts := sseSplit (buffer ++ chunk.data)
    (StreamAction.yield chunk ::
        (parts.dropLast.filterMap (handleSsePart parse)).map
          (fun e => StreamAction.usage e.1 e.2)) ++
      streamTraceAux parse (parts.getLastD []) rest

/-- `streamWithUsageTracking` from index.ts, as the trace of yields and
`processUsage` calls it produces on a chunk list (the upstream body). -/
def streamWithUsageTracking (parse : String → Option SseJson)
    (chunks : List String) : List StreamAction :=
  streamTraceAux parse [] chunks

/-- The chunks a trace yields downstream, in order. -/
def yieldsOf (tr : List StreamAction) : List String :=
  tr.filterMap (fun a =>
    match a with
    | StreamAction.yield c => some c
    | StreamAction.usage _ _ => none)

/-- The `(model, usage)` pairs a trace hands to `processUsage`, in order. -/
def usagesOf (tr : List StreamAction) : List (String × UsageObj) :=
  tr.filterMap (fun a =>
    match a with
    | StreamAction.yield _ => none
    | StreamAction.usage m u => some (m, u))

/-- A `JSON.parse` behaviour for the C5 counterexample, faithful to the
platform primitive on the one payload the trace parses: the text
`{"usage":{"prompt_tokens":3,"completion_tokens":7}}` yields an object whose
`usage` member has `prompt_tokens` 3 and `completion_tokens` 7 and which has
no `model` member — exactly what `JSON.parse` returns on that text. -/
def parseSseCx : String → Option SseJson := fun s =>
  if s = "\x7b\"usage\":\x7b\"prompt_tokens\":3,\"completion_tokens\":7\x7d\x7d" then
    some ⟨none, some ⟨some 3, some 7, none, none, none⟩⟩
  else none

/-! ### The `/v1/*` proxy handler (index.ts lines 734-845)

The embedding models the control flow relevant to admission and
request-performance logging: the missing-key guard, the `GET /v1/models` fast
path, identity resolution, the access check on identified JSON POSTs, the
dispatch shapes (deny, streaming, non-streaming), and the upstream error
terminations that bypass `logRequestPerformance` — a rejected `fetch`, a
non-streaming body on which `await upstreamResponse.json()` throws, and an
`await processUsage(...)` that rejects (NaN token counts) before the
non-streaming log call.  An exception thrown in the handler is answered by
the framework's default 500 error response.  Usage extraction itself is
modelled separately (`processUsage`, `streamWithUsageTracking`). -/

/-- The JSON payload `logRequestPerformance` pushes onto `request_perf_queue`.
Timestamps are epoch milliseconds. -/
structure PerfPayload where
  user_id : Option String
  model : String
  path : String
  method : String
  status : Int
  is_stream : Bool
  latency_ms : Int
  started_at : Int
  completed_at : Int
deriving DecidableEq

/-- `logRequestPerformance` from index.ts (lines 672-697): the payload with
`latency_ms = Math.max(0, completedAt - startedAt)`. -/
def logRequestPerformance (userId : Option String) (model path method : String)
    (status : Int) (isStream : Bool) (startedAt completedAt : Int) : PerfPayload :=
  { user_id := userId, model := model, path := path, method := method,
    status := status, is_stream := isStream,
    latency_ms := max 0 (completedAt - startedAt),
    started_at := startedAt, completed_at := completedAt }

/-- JS truthiness of the `userId` string-or-null variable: the empty string
(a whitespace-only header) fails every `if (userId)` guard. -/
def effectiveId : Option String → Option String
  | some s => if s = "" then none else some s
  | none => none

/-- The environment the handler closes over: the upstream key guard, the
policy database, the Redis counters, and the JSON parser for JWT payloads. -/
structure ProxyEnv where
  apiKeySet : Bool
  users : String → Option User
  policies : String → Option Policy
  gps : List GroupPolicy
  pick : List GroupPolicy → Option GroupPolicy
  groups : List String
  dailyUsage : Int
  monthlyUsage : Int
  parse : String → Option JwtPayload

/-- One inbound request as the handler reads it. -/
structure ProxyRequest where
  method : String
  path : String
  contentTypeJson : Bool
  emailHeader : Option String
  idHeader : Option String
  authHeader : Option String
  bodyModel : Option String

/-- What the upstream interaction does, as far as control flow is concerned:
the `fetch` promise may reject before any response exists (`fetchError`); a
response either has `text/event-stream` content type (`stream`), or is
non-streaming with a body on which `await upstreamResponse.json()` throws
(`badBody`, e.g. an HTML 502 from a gateway), or is non-streaming with a body
that parses as JSON carrying optional `model` and `usage` members (`json`). -/
inductive UpstreamOutcome where
  | fetchError
  | stream (status : Int)
  | badBody (status : Int)
  | json (status : Int) (respModel : Option String) (usage : Option UsageObj)
deriving DecidableEq

/-- The HTTP status of the upstream response where one exists; a rejected
fetch propagates as an exception and surfaces as the framework's 500. -/
def upStatus : UpstreamOutcome → Int
  | UpstreamOutcome.fetchError => 500
  | UpstreamOutcome.stream st => st
  | UpstreamOutcome.badBody st => st
  | UpstreamOutcome.json st _ _ => st

/-- Observable outcome of one handler run: the response status and the
RequestLog payloads enqueued onto `request_perf_queue`. -/
structure ProxyOutcome where
  status : Int
  perfLogs : List PerfPayload
deriving DecidableEq

/-- Whether the handler's access check fires and denies: not the models fast
path, an identified JSON POST, and `checkAccess` disallowing. -/
def proxyDenies (env : ProxyEnv) (req : ProxyRequest) : Bool :=
  if req.path = "models" ∧ req.method = "GET" then false
  else
    match effectiveId (resolveIdentity env.parse req.emailHeader req.idHeader
        req.authHeader) with
    | some uid =>
      if req.method = "POST" ∧ req.contentTypeJson = true then
        !(checkAccess env.users env.policies env.gps env.pick env.groups
            env.dailyUsage env.monthlyUsage uid).allowed
      else false
    | none => false

/-- Whether the non-streaming `await processUsage(userId, ..., respData.usage)`
at index.ts line 831 rejects before `logRequestPerformance` runs: the guard
`if (respData.usage)` fired, the user is identified (otherwise `processUsage`
returns at once), and the computed total is NaN. -/
def usageAccountingThrows (env : ProxyEnv) (req : ProxyRequest)
    (usage : Option UsageObj) : Bool :=
  match effectiveId (resolveIdentity env.parse req.emailHeader req.idHeader
      req.authHeader), usage with
  | some _, some u => (usageTotal u).isNone
  | _, _ => false

/-- Whether the handler's response processing reaches a
`logRequestPerformance` call: a rejected fetch never does; a streaming
response always does (the generator's `finally` block); a non-JSON body does
only on the models fast path, which returns raw bytes without parsing; a JSON
body does unless the usage accounting itself throws first. -/
def upstreamLogs (env : ProxyEnv) (req : ProxyRequest) (up : UpstreamOutcome) :
    Bool :=
  match up with
  | UpstreamOutcome.fetchError => false
  | UpstreamOutcome.stream _ => true
  | UpstreamOutcome.badBody _ => decide (req.path = "models" ∧ req.method = "GET")
  | UpstreamOutcome.json _ _ usage =>
    decide (req.path = "models" ∧ req.method = "GET") ||
      !usageAccountingThrows env req usage

/-- The `/v1/*` handler from index.ts: missing key → 500 with no RequestLog;
`GET /v1/models` → fast path with one anonymous RequestLog once the fetch
resolves (the body is returned as raw bytes, never parsed); denied JSON POST
→ 403 with no RequestLog; a rejected fetch, a non-streaming body that fails
`.json()`, or a rejected `processUsage` → the exception surfaces as 500 with
no RequestLog; otherwise the upstream status with one RequestLog (streaming
payloads keyed by the request body's model, non-streaming by
`respData.model || modelName`). -/
def proxyHandler (env : ProxyEnv) (req : ProxyRequest) (up : UpstreamOutcome)
    (startedAt completedAt : Int) : ProxyOutcome :=
  if env.apiKeySet = false then ⟨500, []⟩
  else if req.path = "models" ∧ req.method = "GET" then
    match up with
    | UpstreamOutcome.fetchError => ⟨500, []⟩
    | up' => ⟨upStatus up', [logRequestPerformance none "models" req.path
        req.method (upStatus up') false startedAt completedAt]⟩
  else if proxyDenies env req then ⟨403, []⟩
  else
    let userId := effectiveId (resolveIdentity env.parse req.emailHeader
      req.idHeader req.authHeader)
    let modelName := if req.method = "POST" ∧ req.contentTypeJson = true then
      (jsOrStr req.bodyModel (some "unknown")).getD "unknown" else "unknown"
    match up with
    | UpstreamOutcome.fetchError => ⟨500, []⟩
    | UpstreamOutcome.stream st =>
      ⟨st, [logRequestPerformance userId modelName req.path req.method st true
        startedAt completedAt]⟩
    | UpstreamOutcome.badBody _ => ⟨500, []⟩
    | UpstreamOutcome.json st respModel usage =>
      if usageAccountingThrows env req usage then ⟨500, []⟩
      else ⟨st, [logRequestPerformance userId
        ((jsOrStr respModel (some modelName)).getD modelName)
        req.path req.method st false startedAt completedAt]⟩

/-- Policies that agree except possibly on `allowed_models`. -/
def PolicyEqExceptAllowedModels : Option Policy → Option Policy → Prop
  | none, none => True
  | some p, some q => p.name = q.name ∧ p.daily_token_limit = q.daily_token_limit ∧
      p.monthly_token_limit = q.monthly_token_limit
  | _, _ => False

/-! ### Concrete database fixtures used by counterexamples and witnesses -/

/-- Policies table holding `default`, `pa`, `pb`, all unlimited. -/
def policiesC3 : String → Option Policy := fun id =>
  if id = "default" ∨ id = "pa" ∨ id = "pb" then some ⟨id, -1, -1, "*"⟩ else none

/-- Two group policies with equal priority and distinct targets. -/
def gpsC3 : List GroupPolicy := [⟨"zeta", "pb", 1⟩, ⟨"alpha", "pa", 1⟩]

/-- Users table holding one active user on the `default` policy. -/
def usersW : String → Option User := fun id =>
  if id = "u1" then some ⟨true, "default"⟩ else none

/-- The seeded default policy (db.ts: daily 50000, monthly 1000000), with the
daily limit shrunk to 50 for quota scenarios. -/
def policyW : Policy := ⟨"Default Student Policy", 50, 1000000, "*"⟩

/-- Policies table holding only the default policy. -/
def policiesW : String → Option Policy := fun id =>
  if id = "default" then some policyW else none

/-- `policiesW` with a different `allowed_models` field on the default policy. -/
def policiesW2 : String → Option Policy := fun id =>
  if id = "default" then some ⟨"Default Student Policy", 50, 1000000, "none"⟩
  else none

/-- A proxy environment: key set, user `u1` on the default policy (daily limit
50), daily counter already at 50. -/
def envDeny : ProxyEnv :=
  ⟨true, usersW, policiesW, [], pickFirst, [], 50, 0, fun _ => none⟩

/-- A JSON chat-completions POST from `u1` naming model `m1`. -/
def reqDeny : ProxyRequest :=
  ⟨"POST", "chat/completions", true, some "u1", none, none, some "m1"⟩

/-- A plain JSON (non-streaming) upstream response without `model` or `usage`
members. -/
def upJson : UpstreamOutcome := UpstreamOutcome.json 200 none none

/-! ### Theorems -/

/-- C8: the claim that `cleanHeaders` omits every header matching
`x-forwarded-*` is false: `x-forwarded-port` matches `x-forwarded-*`, is in
neither strip set, and is retained in the forwarded header map. -/
theorem cleanHeaders_retains_x_forwarded_port :
    cleanHeaders [("x-forwarded-port", "80")] = [("x-forwarded-port", "80")] ∧
    jsStartsWith "x-forwarded-port" "x-forwarded-" = true := by
  constructor
  · decide
  · decide

/-- C8 (amended): `cleanHeaders` retains exactly the headers whose lowercased
name is outside the two enumerated sets; of the `x-forwarded-*` family only
`x-forwarded-for`, `x-forwarded-proto` and `x-forwarded-host` are stripped. -/
theorem cleanHeaders_mem_iff (headers : List (String × String)) (k v : String) :
    (k, v) ∈ cleanHeaders headers ↔
      (k, v) ∈ headers ∧
      jsToLower k ∉ ["cookie", "authorization", "x-forwarded-for", "x-real-ip",
        "x-forwarded-proto", "x-forwarded-host", "accept-encoding", "host",
        "content-length"] ∧
      jsToLower k ∉ ["connection", "keep-alive", "proxy-authenticate",
        "proxy-authorization", "te", "trailer", "transfer-encoding", "upgrade"] := by
  simp [cleanHeaders, List.mem_filter, STRIP_HEADERS, HOP_BY_HOP_HEADERS,
    and_assoc]

/-- C9: the claim that a value of length at most 8 (including the empty value)
masks to `"********"` is false: a secret key with the empty stored value is
rendered as `""`. -/
theorem maskConfigValue_empty_counterexample :
    maskConfigValue "OPENROUTER_API_KEY" "" = "" ∧ ("" : String) ≠ "********" := by
  constructor
  · decide
  · decide

/-- C9 (amended): for keys containing `KEY`, `PASSWORD` or `SECRET`, the mask is
`""` for the empty value, `"********"` for values of length 1..8, and
first-4 + 8 stars + last-4 otherwise; other keys are returned unmasked (with the
empty value returned as itself). -/
theorem maskConfigValue_eq_specAmended (key value : String) :
    maskConfigValue key value = maskConfigValueSpecAmended key value := by
  unfold maskConfigValue maskConfigValueSpecAmended
  by_cases hv : value = ""
  · subst hv
    by_cases hk : (jsIncludes key "KEY" || jsIncludes key "PASSWORD" ||
        jsIncludes key "SECRET") = true <;> simp [hk]
  · simp [hv]

theorem pickFirst_eq_none {rows : List GroupPolicy} (h : pickFirst rows = none) :
    rows = [] := by
  cases rows with
  | nil => rfl
  | cons r rest =>
    exfalso
    unfold pickFirst at h
    cases hrest : pickFirst rest with
    | none => rw [hrest] at h; exact Option.noConfusion h
    | some b =>
      rw [hrest] at h
      by_cases hb : b.priority > r.priority <;> simp [hb] at h

theorem pickLast_eq_none {rows : List GroupPolicy} (h : pickLast rows = none) :
    rows = [] := by
  cases rows with
  | nil => rfl
  | cons r rest =>
    exfalso
    unfold pickLast at h
    cases hrest : pickLast rest with
    | none => rw [hrest] at h; exact Option.noConfusion h
    | some b =>
      rw [hrest] at h
      by_cases hb : b.priority ≥ r.priority <;> simp [hb] at h

theorem pickFirst_valid : ValidPick pickFirst := by
  intro rows
  induction rows with
  | nil => exact ⟨fun _ => rfl, fun h => absurd rfl h⟩
  | cons r rest ih =>
    refine ⟨fun h => by exact absurd h (List.cons_ne_nil r rest), fun _ => ?_⟩
    cases hrest : pickFirst rest with
    | none =>
      have hnil : rest = [] := pickFirst_eq_none hrest
      subst hnil
      exact ⟨r, by simp [pickFirst], by simp, by simp⟩
    | some b =>
      have hne : rest ≠ [] := by
        intro hnil; subst hnil; simp [pickFirst] at hrest
      obtain ⟨b', hb', hmem, hmax⟩ := (ih).2 hne
      rw [hrest] at hb'
      injection hb' with hb'
      subst hb'
      by_cases hgt : b.priority > r.priority
      · refine ⟨b, ?_, List.mem_cons_of_mem r hmem, ?_⟩
        · simp [pickFirst, hrest, hgt]
        · intro r' hr'
          rcases List.mem_cons.mp hr' with h | h
          · subst h; exact le_of_lt hgt
          · exact hmax r' h
      · refine ⟨r, ?_, List.mem_cons_self r rest, ?_⟩
        · simp [pickFirst, hrest, hgt]
        · intro r' hr'
          rcases List.mem_cons.mp hr' with h | h
          · subst h; exact le_refl _
          · exact le_trans (hmax r' h) (not_lt.mp hgt)

theorem pickLast_valid : ValidPick pickLast := by
  intro rows
  induction rows with
  | nil => exact ⟨fun _ => rfl, fun h => absurd rfl h⟩
  | cons r rest ih =>
    refine ⟨fun h => by exact absurd h (List.cons_ne_nil r rest), fun _ => ?_⟩
    cases hrest : pickLast rest with
    | none =>
      have hnil : rest = [] := pickLast_eq_none hrest
      subst hnil
      exact ⟨r, by simp [pickLast], by simp, by simp⟩
    | some b =>
      have hne : rest ≠ [] := by
        intro hnil; subst hnil; simp [pickLast] at hrest
      obtain ⟨b', hb', hmem, hmax⟩ := (ih).2 hne
      rw [hrest] at hb'
      injection hb' with hb'
      subst hb'
      by_cases hge : b.priority ≥ r.priority
      · refine ⟨b, ?_, List.mem_cons_of_mem r hmem, ?_⟩
        · simp [pickLast, hrest, hge]
        · intro r' hr'
          rcases List.mem_cons.mp hr' with h | h
          · subst h; exact hge
          · exact hmax r' h
      · refine ⟨r, ?_, List.mem_cons_self r rest, ?_⟩
        · simp [pickLast, hrest, hge]
        · intro r' hr'
          rcases List.mem_cons.mp hr' with h | h
          · subst h; exact le_refl _
          · exact le_trans (hmax r' h) (le_of_lt (not_le.mp hge))

theorem matchingRows_nil_of_groups_nil (policies : String → Option Policy)
    (gps : List GroupPolicy) : matchingRows policies gps [] = [] := by
  unfold matchingRows
  induction gps with
  | nil => rfl
  | cons g rest ih => simp [List.filter, ih]

/-- C3: the claim that priority ties are broken deterministically by
lexicographic `group_name` order is false.  With two matching group policies of
equal priority, `pickFirst` satisfies everything `ORDER BY gp.priority DESC
LIMIT 1` guarantees, yet the code returns `pb` (the row listed first) while
the spec's lexicographic tie-break returns `pa`. -/
theorem resolveEffectivePolicy_tiebreak_counterexample :
    ValidPick pickFirst ∧
    resolveEffectivePolicy policiesC3 gpsC3 pickFirst ⟨true, "default"⟩
      ["alpha", "zeta"] = "pb" ∧
    resolveEffectivePolicySpec policiesC3 gpsC3 ⟨true, "default"⟩
      ["alpha", "zeta"] = "pa" ∧
    ("pb" : String) ≠ "pa" :=
  ⟨pickFirst_valid, by decide, by decide, by decide⟩

/-- C3 (amended): under every selection the database may legitimately make,
`resolveEffectivePolicy` returns the user's own policy id when it is not
`default`; otherwise, if no group policy matches (in particular when the group
list is empty) it returns `default`, and if some row matches it returns the
`policy_id` of some matching row (one whose policy exists) of maximal
priority — the tie among maximal rows is not broken deterministically. -/
theorem resolveEffectivePolicy_amended (policies : String → Option Policy)
    (gps : List GroupPolicy) (pick : List GroupPolicy → Option GroupPolicy)
    (hpick : ValidPick pick) (user : User) (groups : List String) :
    (user.policy_id ≠ "default" →
      resolveEffectivePolicy policies gps pick user groups = user.policy_id) ∧
    (user.policy_id = "default" → matchingRows policies gps groups = [] →
      resolveEffectivePolicy policies gps pick user groups = "default") ∧
    (user.policy_id = "default" → matchingRows policies gps groups ≠ [] →
      ∃ r, r ∈ matchingRows policies gps groups ∧
        (∀ r' ∈ matchingRows policies gps groups, r'.priority ≤ r.priority) ∧
        resolveEffectivePolicy policies gps pick user groups = r.policy_id) := by
  refine ⟨?_, ?_, ?_⟩
  · intro hne
    unfold resolveEffectivePolicy
    simp [hne]
  · intro hdef hmat
    unfold resolveEffectivePolicy
    by_cases hg : groups = []
    · subst hg; simp [hdef]
    · rw [if_pos ⟨hdef, hg⟩, hmat, (hpick []).1 rfl]
      exact hdef
  · intro hdef hmat
    have hg : groups ≠ [] := by
      intro hg
      exact hmat (by rw [hg, matchingRows_nil_of_groups_nil])
    obtain ⟨r, hr, hmem, hmax⟩ := (hpick (matchingRows policies gps groups)).2 hmat
    refine ⟨r, hmem, hmax, ?_⟩
    unfold resolveEffectivePolicy
    rw [if_pos ⟨hdef, hg⟩, hr]

/-- C3 amended claim, witness: concrete run through the non-`default` branch
and through the group-override branch. -/
theorem resolveEffectivePolicy_amended_witness :
    ValidPick pickFirst ∧
    resolveEffectivePolicy policiesC3 gpsC3 pickFirst ⟨true, "vip"⟩ ["alpha"] = "vip" :=
  ⟨pickFirst_valid,
    (resolveEffectivePolicy_amended policiesC3 gpsC3 pickFirst pickFirst_valid
      ⟨true, "vip"⟩ ["alpha"]).1 (by decide)⟩

/-- C2: for an existing active user whose effective policy exists, the daily
quota denial fires exactly when the daily limit is positive and the observed
daily counter has reached it; the monthly check runs only when the daily check
does not fire; a non-positive limit never denies; otherwise access is allowed. -/
theorem checkAccess_quota_iff (users : String → Option User)
    (policies : String → Option Policy) (gps : List GroupPolicy)
    (pick : List GroupPolicy → Option GroupPolicy) (groups : List String)
    (daily monthly : Int) (userId : String) (user : User) (policy : Policy)
    (hu : users userId = some user) (ha : user.is_active = true)
    (hp : policies (resolveEffectivePolicy policies gps pick user groups) = some policy) :
    (checkAccess users policies gps pick groups daily monthly userId =
        ⟨false, some "Daily token limit exceeded"⟩ ↔
      policy.daily_token_limit > 0 ∧ daily ≥ policy.daily_token_limit) ∧
    (checkAccess users policies gps pick groups daily monthly userId =
        ⟨false, some "Monthly token limit exceeded"⟩ ↔
      ¬(policy.daily_token_limit > 0 ∧ daily ≥ policy.daily_token_limit) ∧
      (policy.monthly_token_limit > 0 ∧ monthly ≥ policy.monthly_token_limit)) ∧
    (checkAccess users policies gps pick groups daily monthly userId = ⟨true, none⟩ ↔
      ¬(policy.daily_token_limit > 0 ∧ daily ≥ policy.daily_token_limit) ∧
      ¬(policy.monthly_token_limit > 0 ∧ monthly ≥ policy.monthly_token_limit)) := by
  unfold checkAccess
  rw [hu]
  simp only [ha, Bool.not_true, Bool.false_eq_true, if_false]
  rw [hp]
  by_cases hd : policy.daily_token_limit > 0 ∧ daily ≥ policy.daily_token_limit
  · simp [hd]
  · by_cases hm : policy.monthly_token_limit > 0 ∧ monthly ≥ policy.monthly_token_limit
    · simp [hd, hm]
    · simp [hd, hm]

/-- C2 witness: the concrete default policy with a daily limit of 50 and a
counter at 50 is denied with the daily reason. -/
theorem checkAccess_quota_iff_witness :
    checkAccess usersW policiesW [] pickFirst [] 50 0 "u1" =
      ⟨false, some "Daily token limit exceeded"⟩ :=
  ((checkAccess_quota_iff usersW policiesW [] pickFirst [] 50 0 "u1"
      ⟨true, "default"⟩ policyW (by decide) rfl (by decide)).1).mpr (by decide)

theorem lookup_assocIncr_self (l : List (String × Int)) (k : String) (n : Int) :
    List.lookup k (assocIncr l k n) = some ((List.lookup k l).getD 0 + n) := by
  induction l with
  | nil => simp [assocIncr, List.lookup]
  | cons kv rest ih =>
    obtain ⟨k₀, v⟩ := kv
    simp only [assocIncr]
    by_cases h : k₀ = k
    · have hb : (k == k₀) = true := beq_iff_eq.mpr h.symm
      simp [h, List.lookup, hb]
    · have hb : (k == k₀) = false := beq_eq_false_iff_ne.mpr (Ne.symm h)
      simp [h, List.lookup, hb, ih]

theorem lookup_assocIncr_other (l : List (String × Int)) (k k' : String) (n : Int)
    (h : k ≠ k') : List.lookup k (assocIncr l k' n) = List.lookup k l := by
  induction l with
  | nil =>
    have hb : (k == k') = false := beq_eq_false_iff_ne.mpr h
    simp [assocIncr, List.lookup, hb]
  | cons kv rest ih =>
    obtain ⟨k₀, v⟩ := kv
    simp only [assocIncr]
    by_cases h0 : k₀ = k'
    · have hb : (k == k') = false := beq_eq_false_iff_ne.mpr h
      simp [h0, List.lookup, hb]
    · cases hb : k == k₀ with
      | true => simp [h0, List.lookup, hb]
      | false => simp [h0, List.lookup, hb, ih]

theorem lookup_assocSet_self (l : List (String × Int)) (k : String) (n : Int) :
    List.lookup k (assocSet l k n) = some n := by
  induction l with
  | nil => simp [assocSet, List.lookup]
  | cons kv rest ih =>
    obtain ⟨k₀, v⟩ := kv
    simp only [assocSet]
    by_cases h : k₀ = k
    · have hb : (k == k₀) = true := beq_iff_eq.mpr h.symm
      simp [h, List.lookup, hb]
    · have hb : (k == k₀) = false := beq_eq_false_iff_ne.mpr (Ne.symm h)
      simp [h, List.lookup, hb, ih]

theorem lookup_assocSet_other (l : List (String × Int)) (k k' : String) (n : Int)
    (h : k ≠ k') : List.lookup k (assocSet l k' n) = List.lookup k l := by
  induction l with
  | nil =>
    have hb : (k == k') = false := beq_eq_false_iff_ne.mpr h
    simp [assocSet, List.lookup, hb]
  | cons kv rest ih =>
    obtain ⟨k₀, v⟩ := kv
    simp only [assocSet]
    by_cases h0 : k₀ = k'
    · have hb : (k == k') = false := beq_eq_false_iff_ne.mpr h
      simp [h0, List.lookup, hb]
    · cases hb : k == k₀ with
      | true => simp [h0, List.lookup, hb]
      | false => simp [h0, List.lookup, hb, ih]

/-- C10: for an identified user with well-formed token counts, `processUsage`
increments both window counters by `total_tokens || (prompt + completion)`,
sets a 3,456,000-second TTL on both keys, and pushes exactly one usage event
with `total_tokens = total`, `total_cost = cost || total_cost || 0`, and the
timestamp. -/
theorem processUsage_spec (uid model : String) (u : UsageObj)
    (date month ts : String) (st : RedisState) (p c : Int)
    (hp : u.prompt_tokens = some p) (hc : u.completion_tokens = some c)
    (hkeys : dailyKeyOf uid date ≠ monthlyKeyOf uid month) :
    ∃ st', processUsage (some uid) model u date month ts st = some st' ∧
      List.lookup (dailyKeyOf uid date) st'.counters =
        some ((List.lookup (dailyKeyOf uid date) st.counters).getD 0 +
          jsOrInt u.total_tokens (p + c)) ∧
      List.lookup (monthlyKeyOf uid month) st'.counters =
        some ((List.lookup (monthlyKeyOf uid month) st.counters).getD 0 +
          jsOrInt u.total_tokens (p + c)) ∧
      List.lookup (dailyKeyOf uid date) st'.ttls = some 3456000 ∧
      List.lookup (monthlyKeyOf uid month) st'.ttls = some 3456000 ∧
      st'.usageQueue = ⟨uid, model, some p, some c, jsOrInt u.total_tokens (p + c),
        jsOrRat u.cost (jsOrRat u.total_cost 0), ts⟩ :: st.usageQueue := by
  have htot : usageTotal u = some (jsOrInt u.total_tokens (p + c)) := by
    unfold usageTotal usageSum jsOrInt
    rw [hp, hc]
    cases ht : u.total_tokens with
    | none => rfl
    | some t => by_cases h0 : t = 0 <;> simp [h0]
  refine ⟨_, by unfold processUsage; rw [htot], ?_, ?_, ?_, ?_, ?_⟩
  · rw [lookup_assocIncr_other _ _ _ _ hkeys, lookup_assocIncr_self]
  · rw [lookup_assocIncr_self, lookup_assocIncr_other _ _ _ _ (Ne.symm hkeys)]
  · rw [lookup_assocSet_other _ _ _ _ hkeys, lookup_assocSet_self]
  · rw [lookup_assocSet_self]
  · rw [hp, hc]
    rfl

/-- C10 witness: a concrete usage object with prompt 3, completion 7, no
`total_tokens` and `total_cost = 2` on an empty Redis state. -/
theorem processUsage_spec_witness :
    (⟨some 3, some 7, none, none, some 2⟩ : UsageObj).prompt_tokens = some 3 ∧
    (⟨some 3, some 7, none, none, some 2⟩ : UsageObj).completion_tokens = some 7 ∧
    dailyKeyOf "u1" "2026-10-12" ≠ monthlyKeyOf "u1" "2026-10" ∧
    (∃ st', processUsage (some "u1") "m1" ⟨some 3, some 7, none, none, some 2⟩
        "2026-10-12" "2026-10" "t0" ⟨[], [], []⟩ = some st' ∧
      List.lookup (dailyKeyOf "u1" "2026-10-12") st'.counters =
        some ((List.lookup (dailyKeyOf "u1" "2026-10-12")
          (⟨[], [], []⟩ : RedisState).counters).getD 0 +
          jsOrInt (⟨some 3, some 7, none, none, some 2⟩ : UsageObj).total_tokens (3 + 7)) ∧
      List.lookup (monthlyKeyOf "u1" "2026-10") st'.counters =
        some ((List.lookup (monthlyKeyOf "u1" "2026-10")
          (⟨[], [], []⟩ : RedisState).counters).getD 0 +
          jsOrInt (⟨some 3, some 7, none, none, some 2⟩ : UsageObj).total_tokens (3 + 7)) ∧
      List.lookup (dailyKeyOf "u1" "2026-10-12") st'.ttls = some 3456000 ∧
      List.lookup (monthlyKeyOf "u1" "2026-10") st'.ttls = some 3456000 ∧
      st'.usageQueue = [⟨"u1", "m1", some 3, some 7,
        jsOrInt (⟨some 3, some 7, none, none, some 2⟩ : UsageObj).total_tokens (3 + 7),
        jsOrRat (⟨some 3, some 7, none, none, some 2⟩ : UsageObj).cost
          (jsOrRat (⟨some 3, some 7, none, none, some 2⟩ : UsageObj).total_cost 0), "t0"⟩]) :=
  ⟨rfl, rfl, by decide,
    processUsage_spec "u1" "m1" ⟨some 3, some 7, none, none, some 2⟩
      "2026-10-12" "2026-10" "t0" ⟨[], [], []⟩ 3 7 rfl rfl (by decide)⟩

/-- C6: the claim (and `CONFIG_STRATEGY.md`) requires all eight recognized
keys — including `REDIS_URL` — to be non-empty, with HTTP 400 otherwise, but
the code's `required` array omits the three URL keys: blanking `REDIS_URL`
is accepted with HTTP 200 and the empty value is persisted and published. -/
theorem postConfig_blank_redis_url_accepted :
    (postConfig currentConfigW [("REDIS_URL", "")]).status = 200 ∧
    (postConfig currentConfigW [("REDIS_URL", "")]).success = true ∧
    (postConfig currentConfigW [("REDIS_URL", "")]).changed = ["REDIS_URL"] ∧
    (∃ m, (postConfig currentConfigW [("REDIS_URL", "")]).persisted = some m ∧
      m "REDIS_URL" = "") ∧
    (postConfig currentConfigW [("REDIS_URL", "")]).published = true ∧
    "REDIS_URL" ∉ required ∧ "REDIS_URL" ∈ CONFIG_KEYS := by
  refine ⟨?_, ?_, ?_, ⟨(mergeUpdates currentConfigW [("REDIS_URL", "")]).1, ?_, ?_⟩,
    ?_, ?_, ?_⟩
  · decide
  · decide
  · decide
  · rfl
  · decide
  · decide
  · decide
  · decide

theorem jsToLower_eq_empty_iff (s : String) : jsToLower s = "" ↔ s = "" := by
  unfold jsToLower
  constructor
  · intro h
    have hd : s.data.map lowerChar = [] := congrArg String.data h
    have : s.data = [] := List.map_eq_nil_iff.mp hd
    cases s
    simp_all
  · intro h
    subst h
    rfl

theorem getUserFromJWT_shape (parse : String → Option JwtPayload) (tok id : String)
    (h : getUserFromJWT parse tok = some id) :
    id ≠ "" ∧ ∃ x, id = jsToLower x := by
  unfold getUserFromJWT at h
  by_cases hl : (jsSplitChar tok '.').length < 2
  · simp [hl] at h
  · simp only [hl, if_false] at h
    cases hatob : jsAtob (replaceUrlChars
        (((jsSplitChar tok '.').get? 1).getD "" ++
          ⟨List.replicate ((4 - (((jsSplitChar tok '.').get? 1).getD "").data.length % 4) % 4) '='⟩)) with
    | none => rw [hatob] at h; exact Option.noConfusion h
    | some decoded =>
      rw [hatob] at h
      cases hparse : parse decoded with
      | none => simp only [hparse] at h; exact Option.noConfusion h
      | some data =>
        simp only [hparse] at h
        cases hid : jsOrStr data.email (jsOrStr data.id data.sub) with
        | none => simp only [hid] at h; exact Option.noConfusion h
        | some id0 =>
          simp only [hid] at h
          by_cases h0 : id0 = ""
          · simp [h0] at h
          · simp only [h0, if_false] at h
            injection h with h
            subst h
            exact ⟨fun hc => h0 ((jsToLower_eq_empty_iff id0).mp hc), id0, rfl⟩

/-- C7: the claim that every produced identifier is whitespace-trimmed is
false.  A Bearer token whose payload decodes to `{"email":" A@X.com "}` (no
headers present) resolves to `" a@x.com "`: lowercased but with its
surrounding spaces intact. -/
theorem resolveIdentity_jwt_not_trimmed :
    resolveIdentity parseJwtCx none none
      (some "Bearer h.eyJlbWFpbCI6IiBBQFguY29tICJ9.sig") = some " a@x.com " ∧
    jsTrim " a@x.com " ≠ " a@x.com " := by
  constructor
  · decide
  · decide

/-- C7 (amended): identity sources are tried in order with first match
winning — `x-openwebui-user-email`, then `x-openwebui-user-id`, then the JWT
payload of a Bearer token (URL-safe base64 with padding restored modulo 4,
JSON-parsed, taking `email` or `id` or `sub`).  Header-derived identifiers are
lowercased and trimmed (a whitespace-only header degenerates to the empty
identifier, which downstream guards treat as anonymous); JWT-derived
identifiers are lowercased and non-empty but NOT trimmed; a malformed token
(too few segments, or an unparseable payload) yields none without any
exception surfacing. -/
theorem resolveIdentity_amended (parse : String → Option JwtPayload)
    (eh ih ah : Option String) :
    (∀ raw, jsOrStr eh ih = some raw → jsTrim (jsToLower raw) ≠ "" →
      resolveIdentity parse eh ih ah = some (jsTrim (jsToLower raw))) ∧
    (jsOrStr eh ih = none → resolveIdentity parse eh ih ah = bearerJwtId parse ah) ∧
    (∀ tok id, getUserFromJWT parse tok = some id →
      id ≠ "" ∧ ∃ x, id = jsToLower x) ∧
    (∀ tok, (∀ s, parse s = none) → getUserFromJWT parse tok = none) ∧
    (∀ tok, (jsSplitChar tok '.').length < 2 → getUserFromJWT parse tok = none) := by
  refine ⟨?_, ?_, ?_, ?_, ?_⟩
  · intro raw hr hne
    unfold resolveIdentity
    rw [hr]
    simp [hne]
  · intro h
    unfold resolveIdentity
    rw [h]
    rfl
  · exact fun tok id h => getUserFromJWT_shape parse tok id h
  · intro tok hparse
    unfold getUserFromJWT
    by_cases hl : (jsSplitChar tok '.').length < 2
    · simp [hl]
    · simp only [hl, if_false]
      cases hatob : jsAtob (replaceUrlChars
          (((jsSplitChar tok '.').get? 1).getD "" ++
            ⟨List.replicate ((4 - (((jsSplitChar tok '.').get? 1).getD "").data.length % 4) % 4) '='⟩)) with
      | none => rfl
      | some decoded => simp [hparse decoded]
  · intro tok hl
    simp [getUserFromJWT, hl]

/-- C7 amended claim, witness: a header identity is lowercased and trimmed and
wins over the (absent) JWT. -/
theorem resolveIdentity_amended_witness :
    jsOrStr (some " Bob@X.com ") none = some " Bob@X.com " ∧
    jsTrim (jsToLower " Bob@X.com ") ≠ "" ∧
    resolveIdentity (fun _ => none) (some " Bob@X.com ") none none =
      some (jsTrim (jsToLower " Bob@X.com ")) ∧
    jsTrim (jsToLower " Bob@X.com ") = "bob@x.com" :=
  ⟨by decide, by decide,
    (resolveIdentity_amended (fun _ => none) (some " Bob@X.com ") none none).1
      " Bob@X.com " (by decide) (by decide), by decide⟩

theorem sseSplit_ne_nil (l : List Char) : sseSplit l ≠ [] := by
  induction l using sseSplit.induct with
  | case1 => simp [sseSplit]
  | case2 c => simp [sseSplit]
  | case3 c1 c2 rest h ih =>
    obtain ⟨rfl, rfl⟩ := h
    simp [sseSplit]
  | case4 c1 c2 rest h h2 ih =>
    unfold sseSplit
    rw [if_neg h, h2]
    simp
  | case5 c1 c2 rest h p ps hs ih =>
    unfold sseSplit
    rw [if_neg h, hs]
    simp

theorem sseSplit_singleton {l p : List Char} (hp : sseSplit l = [p]) : p = l := by
  induction l using sseSplit.induct generalizing p with
  | case1 =>
    unfold sseSplit at hp
    injection hp with h1 h2
    exact h1.symm
  | case2 c =>
    unfold sseSplit at hp
    injection hp with h1 h2
    exact h1.symm
  | case3 c1 c2 rest h ih =>
    obtain ⟨rfl, rfl⟩ := h
    unfold sseSplit at hp
    rw [if_pos ⟨rfl, rfl⟩] at hp
    injection hp with h1 h2
    exact absurd h2 (sseSplit_ne_nil rest)
  | case4 c1 c2 rest h h2 ih =>
    exact absurd h2 (sseSplit_ne_nil _)
  | case5 c1 c2 rest h q qs hs ih =>
    unfold sseSplit at hp
    rw [if_neg h, hs] at hp
    injection hp with h1 h2
    subst h2
    have hq : q = c2 :: rest := ih hs
    rw [← h1, hq]


theorem getLastD_default_irrel {α : Type} {l : List α} (hl : l ≠ []) (d d' : α) :
    l.getLastD d = l.getLastD d' := by
  rw [List.getLastD_eq_getLast?, List.getLastD_eq_getLast?]
  obtain ⟨x, hx⟩ := Option.isSome_iff_exists.mp (List.getLast?_isSome.mpr hl)
  rw [hx]
  rfl

theorem sseSplit_cons_cons (c1 c2 : Char) (rest : List Char) :
    sseSplit (c1 :: c2 :: rest) =
      if c1 = '\n' ∧ c2 = '\n' then [] :: sseSplit rest
      else
        match sseSplit (c2 :: rest) with
        | [] => [[c1]]
        | p :: ps => (c1 :: p) :: ps := by
  rfl

theorem sseSplit_last_noSep (l : List Char) :
    sseSplit ((sseSplit l).getLastD []) = [(sseSplit l).getLastD []] := by
  induction l using sseSplit.induct with
  | case1 => rfl
  | case2 c => rfl
  | case3 c1 c2 rest h ih =>
    rw [sseSplit_cons_cons, if_pos h, List.getLastD_cons]
    exact ih
  | case4 c1 c2 rest h h2 ih => exact absurd h2 (sseSplit_ne_nil _)
  | case5 c1 c2 rest h q qs hs ih =>
    rw [sseSplit_cons_cons, if_neg h, hs]
    cases qs with
    | nil =>
      have hq : q = c2 :: rest := sseSplit_singleton hs
      rw [List.getLastD_cons, List.getLastD_nil]
      rw [show (c1 :: q) = c1 :: c2 :: rest from by rw [hq]]
      rw [sseSplit_cons_cons, if_neg h, hs, hq]
    | cons q2 qs2 =>
      rw [List.getLastD_cons]
      have hirr : (q2 :: qs2).getLastD (c1 :: q) = (q2 :: qs2).getLastD q :=
        getLastD_default_irrel (List.cons_ne_nil _ _) _ _
      rw [hirr, ← List.getLastD_cons ([] : List Char) q (q2 :: qs2), ← hs]
      exact ih

theorem sseSplit_append (b : List Char) (a : List Char) :
    sseSplit (a ++ b) =
      (sseSplit a).dropLast ++ sseSplit ((sseSplit a).getLastD [] ++ b) := by
  induction a using sseSplit.induct with
  | case1 => rfl
  | case2 c => rfl
  | case3 c1 c2 rest h ih =>
    rw [show (c1 :: c2 :: rest) ++ b = c1 :: c2 :: (rest ++ b) from rfl]
    rw [sseSplit_cons_cons c1 c2 (rest ++ b), if_pos h]
    rw [sseSplit_cons_cons c1 c2 rest, if_pos h]
    rw [List.dropLast_cons_of_ne_nil (sseSplit_ne_nil rest), List.getLastD_cons]
    rw [ih]
    rfl
  | case4 c1 c2 rest h h2 ih => exact absurd h2 (sseSplit_ne_nil _)
  | case5 c1 c2 rest h q qs hs ih =>
    rw [show (c1 :: c2 :: rest) ++ b = c1 :: ((c2 :: rest) ++ b) from rfl]
    cases qs with
    | nil =>
      have hq : q = c2 :: rest := sseSplit_singleton hs
      have heq : sseSplit (c1 :: c2 :: rest) = [c1 :: q] := by
        rw [sseSplit_cons_cons, if_neg h, hs]
      rw [heq, List.getLastD_cons, List.getLastD_nil]
      rw [show ([c1 :: q] : List (List Char)).dropLast = [] from rfl]
      rw [List.nil_append]
      rw [show (c1 :: q) ++ b = c1 :: ((c2 :: rest) ++ b) from by rw [hq]; rfl]
    | cons q2 qs2 =>
      have heq : sseSplit (c1 :: c2 :: rest) = (c1 :: q) :: q2 :: qs2 := by
        rw [sseSplit_cons_cons, if_neg h, hs]
      have hsplit : sseSplit ((c2 :: rest) ++ b) =
          q :: ((q2 :: qs2).dropLast ++ sseSplit ((q2 :: qs2).getLastD q ++ b)) := by
        rw [ih, hs]
        rw [List.dropLast_cons_of_ne_nil (List.cons_ne_nil q2 qs2),
          List.getLastD_cons]
        rfl
      have hmain : sseSplit (c1 :: ((c2 :: rest) ++ b)) =
          (c1 :: q) :: ((q2 :: qs2).dropLast ++ sseSplit ((q2 :: qs2).getLastD q ++ b)) := by
        rw [show c1 :: ((c2 :: rest) ++ b) = c1 :: c2 :: (rest ++ b) from rfl]
        rw [sseSplit_cons_cons c1 c2 (rest ++ b)]
        rw [if_neg h]
        rw [show (c2 :: (rest ++ b)) = (c2 :: rest) ++ b from rfl, hsplit]
      rw [hmain, heq]
      rw [List.dropLast_cons_of_ne_nil (List.cons_ne_nil q2 qs2)]
      rw [List.getLastD_cons ([] : List Char) (c1 :: q) (q2 :: qs2)]
      have hirr : (q2 :: qs2).getLastD (c1 :: q) = (q2 :: qs2).getLastD q :=
        getLastD_default_irrel (List.cons_ne_nil _ _) _ _
      rw [hirr]
      rfl

theorem yieldsOf_append (t1 t2 : List StreamAction) :
    yieldsOf (t1 ++ t2) = yieldsOf t1 ++ yieldsOf t2 :=
  List.filterMap_append _ _ _

theorem usagesOf_append (t1 t2 : List StreamAction) :
    usagesOf (t1 ++ t2) = usagesOf t1 ++ usagesOf t2 :=
  List.filterMap_append _ _ _

theorem yieldsOf_usageBlock (c : String) (l : List (String × UsageObj)) :
    yieldsOf (StreamAction.yield c ::
      l.map (fun e => StreamAction.usage e.1 e.2)) = [c] := by
  unfold yieldsOf
  rw [List.filterMap_cons]
  simp [List.filterMap_map, Function.comp]

theorem usagesOf_usageBlock (c : String) (l : List (String × UsageObj)) :
    usagesOf (StreamAction.yield c ::
      l.map (fun e => StreamAction.usage e.1 e.2)) = l := by
  unfold usagesOf
  rw [List.filterMap_cons, List.filterMap_map]
  have hcomp : ((fun a : StreamAction =>
      match a with
      | StreamAction.yield _ => none
      | StreamAction.usage m u => some (m, u)) ∘
      fun e : String × UsageObj => StreamAction.usage e.1 e.2) =
      fun e => some e := by
    funext e
    cases e
    rfl
  rw [hcomp]
  simp

theorem streamTraceAux_yields (parse : String → Option SseJson) :
    ∀ (chunks : List String) (buffer : List Char),
      yieldsOf (streamTraceAux parse buffer chunks) = chunks := by
  intro chunks
  induction chunks with
  | nil => intro buffer; rfl
  | cons c rest ih =>
    intro buffer
    rw [show streamTraceAux parse buffer (c :: rest) =
        (StreamAction.yield c ::
          ((sseSplit (buffer ++ c.data)).dropLast.filterMap (handleSsePart parse)).map
            (fun e => StreamAction.usage e.1 e.2)) ++
          streamTraceAux parse ((sseSplit (buffer ++ c.data)).getLastD []) rest from rfl]
    rw [yieldsOf_append, yieldsOf_usageBlock, ih]
    rfl

theorem streamTraceAux_usages (parse : String → Option SseJson) :
    ∀ (chunks : List String) (buffer : List Char), sseSplit buffer = [buffer] →
      usagesOf (streamTraceAux parse buffer chunks) =
        (sseSplit (buffer ++ (chunks.map String.data).flatten)).dropLast.filterMap
          (handleSsePart parse) := by
  intro chunks
  induction chunks with
  | nil =>
    intro buffer hbuf
    show ([] : List (String × UsageObj)) = _
    rw [show ((([] : List String).map String.data).flatten : List Char) = [] from rfl]
    rw [List.append_nil, hbuf]
    rfl
  | cons c rest ih =>
    intro buffer hbuf
    rw [show streamTraceAux parse buffer (c :: rest) =
        (StreamAction.yield c ::
          ((sseSplit (buffer ++ c.data)).dropLast.filterMap (handleSsePart parse)).map
            (fun e => StreamAction.usage e.1 e.2)) ++
          streamTraceAux parse ((sseSplit (buffer ++ c.data)).getLastD []) rest from rfl]
    rw [usagesOf_append, usagesOf_usageBlock]
    rw [ih ((sseSplit (buffer ++ c.data)).getLastD []) (sseSplit_last_noSep _)]
    rw [show (((c :: rest).map String.data).flatten : List Char) =
        c.data ++ (rest.map String.data).flatten from rfl]
    rw [show buffer ++ (c.data ++ (rest.map String.data).flatten) =
        (buffer ++ c.data) ++ (rest.map String.data).flatten from
      (List.append_assoc _ _ _).symm]
    rw [sseSplit_append ((rest.map String.data).flatten) (buffer ++ c.data)]
    rw [List.dropLast_append_of_ne_nil _ (sseSplit_ne_nil _)]
    rw [List.filterMap_append]

/-- C5: the claim that a usage event without `data.model` is keyed by the
request's model is false.  One complete SSE event whose payload
`{"usage":{"prompt_tokens":3,"completion_tokens":7}}` carries a `usage`
object and no `model` produces an event keyed by the empty string, while the
claim's reading (fallback to the request's model `"m1"`) predicts `"m1"`. -/
theorem streaming_model_fallback_counterexample :
    usagesOf (streamWithUsageTracking parseSseCx
        ["data: \x7b\"usage\":\x7b\"prompt_tokens\":3,\"completion_tokens\":7\x7d\x7d\n\n"]) =
      [("", ⟨some 3, some 7, none, none, none⟩)] ∧
    (sseSplit ("data: \x7b\"usage\":\x7b\"prompt_tokens\":3,\"completion_tokens\":7\x7d\x7d\n\n".data)).dropLast.filterMap
        (handleSsePartClaim parseSseCx "m1") =
      [("m1", ⟨some 3, some 7, none, none, none⟩)] ∧
    ("" : String) ≠ "m1" := by
  refine ⟨?_, ?_, ?_⟩
  · decide
  · decide
  · decide

/-- C5 (amended): the generator forwards every upstream chunk verbatim and in
order; and its `processUsage` calls are exactly those obtained by splitting
the full decoded text on `"\n\n"` (the unterminated tail is discarded), and
for each complete event starting with `"data: "` whose trimmed remainder is
non-empty, not `"[DONE]"`, and parses to JSON with a `usage` member, one
event keyed by `data.model` with the EMPTY STRING as fallback (not the
request's model); parse failures contribute nothing and never abort the
stream. -/
theorem streamWithUsageTracking_amended (parse : String → Option SseJson)
    (chunks : List String) :
    yieldsOf (streamWithUsageTracking parse chunks) = chunks ∧
    usagesOf (streamWithUsageTracking parse chunks) =
      (sseSplit ((chunks.map String.data).flatten)).dropLast.filterMap
        (handleSsePart parse) := by
  constructor
  · exact streamTraceAux_yields parse chunks []
  · have h := streamTraceAux_usages parse chunks [] rfl
    rwa [List.nil_append] at h

/-- C1: the claim that every terminated `/v1/*` request — including requests
denied with HTTP 403 — enqueues exactly one RequestLog payload is false: a
quota-denied JSON POST returns 403 and enqueues none. -/
theorem proxyHandler_deny_no_perf_log :
    proxyHandler envDeny reqDeny upJson 1000 1005 =
      ⟨403, ([] : List PerfPayload)⟩ ∧
    ([] : List PerfPayload).length ≠ 1 := by
  constructor
  · decide
  · decide

/-- C1 (amended): with the upstream key missing the handler answers 500 and
enqueues no RequestLog; a denied request answers 403 and enqueues no
RequestLog; a request whose response processing terminates by exception — a
rejected fetch, a non-streaming body on which `.json()` throws, or a rejected
usage accounting — enqueues no RequestLog; every other terminating request
(models fast path, streaming, non-streaming JSON) enqueues exactly one
RequestLog payload whose `latency_ms` is `completed_at - started_at` clamped
to at least 0 and whose status is the upstream status. -/
theorem proxyHandler_perf_amended (env : ProxyEnv) (req : ProxyRequest)
    (up : UpstreamOutcome) (startedAt completedAt : Int) :
    (env.apiKeySet = false →
      proxyHandler env req up startedAt completedAt = ⟨500, []⟩) ∧
    (env.apiKeySet = true → proxyDenies env req = true →
      proxyHandler env req up startedAt completedAt = ⟨403, []⟩) ∧
    (env.apiKeySet = true → proxyDenies env req = false →
      upstreamLogs env req up = false →
      (proxyHandler env req up startedAt completedAt).perfLogs = []) ∧
    (env.apiKeySet = true → proxyDenies env req = false →
      upstreamLogs env req up = true →
      (proxyHandler env req up startedAt completedAt).perfLogs.length = 1 ∧
      (proxyHandler env req up startedAt completedAt).status = upStatus up ∧
      ∀ p ∈ (proxyHandler env req up startedAt completedAt).perfLogs,
        p.latency_ms = max 0 (completedAt - startedAt) ∧
        p.started_at = startedAt ∧ p.completed_at = completedAt ∧
        p.status = upStatus up) := by
  refine ⟨?_, ?_, ?_, ?_⟩
  · intro h
    unfold proxyHandler
    simp [h]
  · intro hkey hden
    unfold proxyHandler
    have hnm : ¬(req.path = "models" ∧ req.method = "GET") := by
      intro hm
      unfold proxyDenies at hden
      rw [if_pos hm] at hden
      exact Bool.noConfusion hden
    simp [hkey, hnm, hden]
  · intro hkey hden hlog
    unfold proxyHandler
    rw [if_neg (by simp [hkey])]
    by_cases hm : req.path = "models" ∧ req.method = "GET"
    · rw [if_pos hm]
      cases up with
      | fetchError => rfl
      | stream st => exact absurd hlog (by simp [upstreamLogs])
      | badBody st => exact absurd hlog (by simp [upstreamLogs, hm])
      | json st respModel usage => exact absurd hlog (by simp [upstreamLogs, hm])
    · rw [if_neg hm, hden]
      rw [if_neg (by simp)]
      cases up with
      | fetchError => rfl
      | stream st => exact absurd hlog (by simp [upstreamLogs])
      | badBody st => rfl
      | json st respModel usage =>
        simp only [upstreamLogs, decide_eq_false hm, Bool.false_or,
          Bool.not_eq_false'] at hlog
        simp [hlog]
  · intro hkey hden hlog
    unfold proxyHandler
    rw [if_neg (by simp [hkey])]
    by_cases hm : req.path = "models" ∧ req.method = "GET"
    · rw [if_pos hm]
      cases up with
      | fetchError => exact absurd hlog (by simp [upstreamLogs])
      | stream st =>
        refine ⟨rfl, rfl, ?_⟩
        intro p hp
        rw [List.mem_singleton] at hp
        subst hp
        exact ⟨rfl, rfl, rfl, rfl⟩
      | badBody st =>
        refine ⟨rfl, rfl, ?_⟩
        intro p hp
        rw [List.mem_singleton] at hp
        subst hp
        exact ⟨rfl, rfl, rfl, rfl⟩
      | json st respModel usage =>
        refine ⟨rfl, rfl, ?_⟩
        intro p hp
        rw [List.mem_singleton] at hp
        subst hp
        exact ⟨rfl, rfl, rfl, rfl⟩
    · rw [if_neg hm, hden]
      rw [if_neg (by simp)]
      cases up with
      | fetchError => exact absurd hlog (by simp [upstreamLogs])
      | stream st =>
        refine ⟨rfl, rfl, ?_⟩
        intro p hp
        rw [List.mem_singleton] at hp
        subst hp
        exact ⟨rfl, rfl, rfl, rfl⟩
      | badBody st => exact absurd hlog (by simp [upstreamLogs, hm])
      | json st respModel usage =>
        simp only [upstreamLogs, decide_eq_false hm, Bool.false_or,
          Bool.not_eq_true'] at hlog
        refine ⟨?_, ?_, ?_⟩
        · simp [hlog]
        · simp [hlog, upStatus]
        · intro p hp
          simp [hlog] at hp
          subst hp
          exact ⟨rfl, rfl, rfl, rfl⟩

/-- C1 amended claim, witness: an allowed request whose upstream response is
plain JSON enqueues exactly one payload with the clamped latency. -/
theorem proxyHandler_perf_amended_witness :
    envDeny.apiKeySet = true ∧
    proxyDenies envDeny ⟨"GET", "models", false, none, none, none, none⟩ = false ∧
    upstreamLogs envDeny ⟨"GET", "models", false, none, none, none, none⟩
      upJson = true ∧
    ((proxyHandler envDeny ⟨"GET", "models", false, none, none, none, none⟩
        upJson 1000 1005).perfLogs.length = 1 ∧
      (proxyHandler envDeny ⟨"GET", "models", false, none, none, none, none⟩
        upJson 1000 1005).status = upStatus upJson ∧
      ∀ p ∈ (proxyHandler envDeny ⟨"GET", "models", false, none, none, none, none⟩
          upJson 1000 1005).perfLogs,
        p.latency_ms = max 0 (1005 - 1000) ∧
        p.started_at = 1000 ∧ p.completed_at = 1005 ∧
        p.status = upStatus upJson) :=
  ⟨rfl, by decide, by decide,
    (proxyHandler_perf_amended envDeny ⟨"GET", "models", false, none, none, none, none⟩
      upJson 1000 1005).2.2.2 rfl (by decide) (by decide)⟩

theorem proxyHandler_status (env : ProxyEnv) (req : ProxyRequest)
    (up : UpstreamOutcome) (s c : Int) :
    (proxyHandler env req up s c).status =
      if env.apiKeySet = false then 500
      else if req.path = "models" ∧ req.method = "GET" then
        (match up with
         | UpstreamOutcome.fetchError => 500
         | up' => upStatus up')
      else if proxyDenies env req then 403
      else
        match up with
        | UpstreamOutcome.fetchError => 500
        | UpstreamOutcome.stream st => st
        | UpstreamOutcome.badBody _ => 500
        | UpstreamOutcome.json st _ usage =>
          if usageAccountingThrows env req usage then 500 else st := by
  unfold proxyHandler
  by_cases h1 : env.apiKeySet = false
  · simp [h1]
  · rw [if_neg h1, if_neg h1]
    by_cases h2 : req.path = "models" ∧ req.method = "GET"
    · rw [if_pos h2, if_pos h2]
      cases up <;> rfl
    · rw [if_neg h2, if_neg h2]
      by_cases h3 : proxyDenies env req = true
      · simp [h3]
      · rw [Bool.not_eq_true] at h3
        simp only [h3]
        cases up with
        | fetchError => rfl
        | stream st => rfl
        | badBody st => rfl
        | json st respModel usage =>
          by_cases h4 : usageAccountingThrows env req usage = true
          · simp [h4]
          · rw [Bool.not_eq_true] at h4
            simp [h4]

theorem matchingRows_allowed_models_blind
    (policies policies' : String → Option Policy)
    (hpol : ∀ id, PolicyEqExceptAllowedModels (policies id) (policies' id))
    (gps : List GroupPolicy) (groups : List String) :
    matchingRows policies gps groups = matchingRows policies' gps groups := by
  unfold matchingRows
  apply List.filter_congr
  intro g hg
  have h := hpol g.policy_id
  cases hp1 : policies g.policy_id with
  | none =>
    cases hp2 : policies' g.policy_id with
    | none => rfl
    | some q => rw [hp1, hp2] at h; exact h.elim
  | some p =>
    cases hp2 : policies' g.policy_id with
    | none => rw [hp1, hp2] at h; exact h.elim
    | some q => rfl

/-- C4: the admission decision never reads the request's model.  First, two
requests differing only in the body's `model` field get the same response
status and the same deny decision from the handler.  Second, `checkAccess` is
invariant under arbitrary changes to every policy's `allowed_models` field:
no request is ever denied because of the model it names. -/
theorem checkAccess_model_blind (env : ProxyEnv) (req : ProxyRequest)
    (users : String → Option User) (policies policies' : String → Option Policy)
    (hpol : ∀ id, PolicyEqExceptAllowedModels (policies id) (policies' id))
    (gps : List GroupPolicy) (pick : List GroupPolicy → Option GroupPolicy)
    (groups : List String) (daily monthly : Int) (uid : String) :
    (∀ (m1 m2 : Option String) (up : UpstreamOutcome) (s c : Int),
      (proxyHandler env { req with bodyModel := m1 } up s c).status =
        (proxyHandler env { req with bodyModel := m2 } up s c).status ∧
      proxyDenies env { req with bodyModel := m1 } =
        proxyDenies env { req with bodyModel := m2 }) ∧
    checkAccess users policies gps pick groups daily monthly uid =
      checkAccess users policies' gps pick groups daily monthly uid := by
  constructor
  · intro m1 m2 up s c
    constructor
    · rw [proxyHandler_status, proxyHandler_status]
      rfl
    · rfl
  · have hrows := matchingRows_allowed_models_blind policies policies' hpol gps groups
    have hres : ∀ user : User,
        resolveEffectivePolicy policies gps pick user groups =
          resolveEffectivePolicy policies' gps pick user groups := by
      intro user
      unfold resolveEffectivePolicy
      rw [hrows]
    unfold checkAccess
    cases users uid with
    | none => rfl
    | some user =>
      by_cases ha : (!user.is_active) = true
      · simp [ha]
      · simp only [ha, if_false, Bool.not_eq_true] at *
        rw [hres user]
        have h := hpol (resolveEffectivePolicy policies' gps pick user groups)
        cases hp1 : policies (resolveEffectivePolicy policies' gps pick user groups) with
        | none =>
          cases hp2 : policies' (resolveEffectivePolicy policies' gps pick user groups) with
          | none => simp [ha]
          | some q => rw [hp1, hp2] at h; exact h.elim
        | some p =>
          cases hp2 : policies' (resolveEffectivePolicy policies' gps pick user groups) with
          | none => rw [hp1, hp2] at h; exact h.elim
          | some q =>
            rw [hp1, hp2] at h
            obtain ⟨hn, hd, hm⟩ := h
            simp [ha, hd, hm]

/-- C4 witness: the concrete policy tables differing only in `allowed_models`
give the same access decision for `u1`. -/
theorem checkAccess_model_blind_witness :
    checkAccess usersW policiesW [] pickFirst [] 0 0 "u1" =
      checkAccess usersW policiesW2 [] pickFirst [] 0 0 "u1" :=
  (checkAccess_model_blind envDeny reqDeny usersW policiesW policiesW2
    (fun id => by
      unfold policiesW policiesW2 policyW PolicyEqExceptAllowedModels
      by_cases h : id = "default" <;> simp [h])
    [] pickFirst [] 0 0 "u1").2
